import Mathlib

/-!
Verification of the opencode-database-plugin event pipeline.

The development shallowly embeds the plugin's event handlers (`src/index.ts`)
and the health-gated query wrapper (`src/db.ts`).  Database tables are lists
of rows; SQL statements become explicit list transformations; JavaScript
falsiness on strings (`x || y` treats `""` like `null`) is modelled by
`jsStr`; `COALESCE` is modelled by `coalesce`; the in-memory `Map`s of the
plugin are association lists.
-/

/-! ## JavaScript / SQL helpers -/

/-- Models the JavaScript expression `x || null` on an optional string:
the empty string is falsy, so it collapses to `none`. -/
def jsStr (s : Option String) : Option String :=
  match s with
  | some v => if v = "" then none else some v
  | none => none

/-- SQL `COALESCE(a, b)`: the first non-null value. -/
def coalesce {α : Type} (a b : Option α) : Option α :=
  match a with
  | some v => some v
  | none => b

theorem coalesce_self {α : Type} (a : Option α) : coalesce a a = a := by
  cases a <;> rfl

theorem coalesce_none {α : Type} (b : Option α) : coalesce none b = b := rfl

/-! ## Association lists (the plugin's in-memory `Map`s) -/

/-- Lookup in an association list (`Map.get`). -/
def alookup {β : Type} (k : String) : List (String × β) → Option β
  | [] => none
  | (k', v) :: rest => if k' = k then some v else alookup k rest

/-- Remove a key (`Map.delete`). -/
def aerase {β : Type} (k : String) (l : List (String × β)) : List (String × β) :=
  l.filter (fun p => p.1 != k)

/-- Set a key (`Map.set`): the binding for `k` is replaced by `v`. -/
def aset {β : Type} (k : String) (v : β) (l : List (String × β)) : List (String × β) :=
  (k, v) :: aerase k l

theorem alookup_aset_self {β : Type} (k : String) (v : β) (l : List (String × β)) :
    alookup k (aset k v l) = some v := by
  simp [aset, alookup]

/-! ## List lemmas used throughout -/

theorem find_append_none {α : Type} (p : α → Bool) (l₁ l₂ : List α)
    (h : l₁.find? p = none) : (l₁ ++ l₂).find? p = l₂.find? p := by
  induction l₁ with
  | nil => rfl
  | cons a l ih =>
    cases hpa : p a with
    | true => rw [List.find?_cons_of_pos _ hpa] at h; cases h
    | false =>
      rw [List.find?_cons_of_neg _ (by simp [hpa])] at h
      rw [List.cons_append, List.find?_cons_of_neg _ (by simp [hpa])]
      exact ih h

theorem find_map_pres {α : Type} (f : α → α) (p : α → Bool)
    (hp : ∀ a, p (f a) = p a) (l : List α) :
    (l.map f).find? p = (l.find? p).map f := by
  induction l with
  | nil => rfl
  | cons a l ih =>
    rw [List.map_cons]
    cases hpa : p a with
    | true =>
      rw [List.find?_cons_of_pos _ ((hp a).trans hpa),
        List.find?_cons_of_pos _ hpa]
      rfl
    | false =>
      rw [List.find?_cons_of_neg _ (by simp [hp a, hpa]),
        List.find?_cons_of_neg _ (by simp [hpa])]
      exact ih

/-! ## Health gate (`src/db.ts`)

`consecutiveFailures` / `lastFailureTime` are the module-level counters;
`isDatabaseHealthy` is the backoff admission check; `safeQuery` wraps an
operation, skipping it entirely when unhealthy.  Time is a `Nat` of
milliseconds supplied by the caller (`Date.now()`). -/

def MAX_BACKOFF_MS : Nat := 60000

def BASE_BACKOFF_MS : Nat := 1000

structure DbHealth where
  consecutiveFailures : Nat
  lastFailureTime : Nat
deriving DecidableEq

/-- `isDatabaseHealthy` from `src/db.ts`: healthy while the failure counter is
zero, otherwise once the elapsed time reaches the capped exponential backoff. -/
def isDatabaseHealthy (h : DbHealth) (now : Nat) : Bool :=
  if h.consecutiveFailures = 0 then true
  else
    decide (now - h.lastFailureTime ≥
      min (BASE_BACKOFF_MS * 2 ^ (h.consecutiveFailures - 1)) MAX_BACKOFF_MS)

/-- `markHealthy`: reset both counters. -/
def markHealthy : DbHealth := ⟨0, 0⟩

/-- `markUnhealthy`: bump the failure counter and record the failure time. -/
def markUnhealthy (h : DbHealth) (now : Nat) : DbHealth :=
  ⟨h.consecutiveFailures + 1, now⟩

/-- Outcome of the raced query inside `safeQuery`: success with a value,
a failure matching the connectivity/timeout signature, or any other error. -/
inductive QueryOutcome (α : Type) where
  | success (value : α)
  | connectionFailure
  | dataFailure
deriving DecidableEq

/-- Result of a `safeQuery` call: the returned value (if any), whether the
call raised, whether the wrapped operation was invoked at all, and the
health-gate state afterwards. -/
structure SafeQueryResult (α : Type) where
  result : Option α
  raised : Bool
  invoked : Bool
  health : DbHealth
deriving DecidableEq

/-- `safeQuery` from `src/db.ts`: return `undefined` without invoking the
operation when unhealthy; on success reset the failure counter; on a
connectivity failure mark unhealthy and rethrow; on any other failure
rethrow without degrading health. -/
def safeQuery {α : Type} (h : DbHealth) (now : Nat) (op : QueryOutcome α) :
    SafeQueryResult α :=
  if isDatabaseHealthy h now then
    match op with
    | .success v => ⟨some v, false, true, markHealthy⟩
    | .connectionFailure => ⟨none, true, true, markUnhealthy h now⟩
    | .dataFailure => ⟨none, true, true, h⟩
  else ⟨none, false, false, h⟩

/-! ## `session.error` handler (`src/index.ts` lines 251-273)

The handler dispatches store operations only when a session id is present
(JavaScript truthiness: `undefined` and `""` are both falsy). -/

structure ErrorData where
  message : Option String
deriving DecidableEq

structure ErrorInfo where
  name : Option String
  data : Option ErrorData
deriving DecidableEq

/-- A store write dispatched by the `session.error` handler. -/
inductive StoreOp where
  | insertSessionError (sessionId errType : String) (errMessage : Option String)
  | updateSessionStatus (sessionId status : String)
deriving DecidableEq

/-- The `session.error` handler: with a falsy session id nothing is
dispatched; otherwise an append-only `session_errors` insert and a session
status update to `'error'` are dispatched. -/
def sessionErrorHandler (sessionID : Option String) (err : Option ErrorInfo) :
    List StoreOp :=
  match jsStr sessionID with
  | none => []
  | some sid =>
      [StoreOp.insertSessionError sid
        ((jsStr (err.bind (·.name))).getD "unknown")
        (jsStr (err.bind fun e => e.data.bind (·.message))),
       StoreOp.updateSessionStatus sid "error"]

/-! ## Sessions table and `session.created` / `session.updated`
(`src/index.ts` lines 172-216) -/

structure ShareInfo where
  url : Option String
deriving DecidableEq

structure SessionInfo where
  id : String
  title : Option String := none
  parentID : Option String := none
  projectID : Option String := none
  directory : Option String := none
  share : Option ShareInfo := none
deriving DecidableEq

structure SessionRow where
  id : String
  title : Option String := none
  parentId : Option String := none
  projectId : Option String := none
  directory : Option String := none
  shareUrl : Option String := none
  status : Option String := none
  inputTokens : Nat := 0
  outputTokens : Nat := 0
  reasoningTokens : Nat := 0
  cacheReadTokens : Nat := 0
  cacheWriteTokens : Nat := 0
  contextTokens : Nat := 0
  peakContextTokens : Nat := 0
  modelProvider : Option String := none
  modelId : Option String := none
deriving DecidableEq

/-- `session.created`: `INSERT ... ON CONFLICT (id) DO UPDATE SET
col = COALESCE(new, sessions.col)` for title/parent/project/directory; a
fresh row gets status `'created'`. -/
def sessionCreated (tbl : List SessionRow) (info : SessionInfo) :
    List SessionRow :=
  if (tbl.find? (fun r => r.id == info.id)).isSome then
    tbl.map (fun r =>
      if r.id = info.id then
        { r with
          title := coalesce (jsStr info.title) r.title,
          parentId := coalesce (jsStr info.parentID) r.parentId,
          projectId := coalesce (jsStr info.projectID) r.projectId,
          directory := coalesce (jsStr info.directory) r.directory }
      else r)
  else
    tbl ++ [{ id := info.id, title := jsStr info.title,
              parentId := jsStr info.parentID,
              projectId := jsStr info.projectID,
              directory := jsStr info.directory,
              status := some "created" }]

/-- `session.updated`: `UPDATE sessions SET title = COALESCE(new, title),
share_url = COALESCE(new, share_url) WHERE id = ...`. -/
def sessionUpdated (tbl : List SessionRow) (info : SessionInfo) :
    List SessionRow :=
  tbl.map (fun r =>
    if r.id = info.id then
      { r with
        title := coalesce (jsStr info.title) r.title,
        shareUrl := coalesce (jsStr (info.share.bind (·.url))) r.shareUrl }
    else r)

/-- The `title` column of the stored session row with id `sid`, if a row
exists. -/
def sessionTitle (tbl : List SessionRow) (sid : String) :
    Option (Option String) :=
  (tbl.find? (fun r => r.id == sid)).map (·.title)

/-- The stored session row with id `sid`, if any. -/
def findSession (tbl : List SessionRow) (sid : String) : Option SessionRow :=
  tbl.find? (fun r => r.id == sid)

/-! ## Message parts and the `message.part.updated` merge
(`src/index.ts` lines 469-599)

`PartState` models the nested `state` sub-object of a part; only `status`
and `output` are ever read or written by the handlers, so the other
optional fields of the source interface are omitted.  A `PartRow` is a row
of `message_parts`; its `content` column stores the full part snapshot. -/

structure PartState where
  status : Option String := none
  output : Option String := none
deriving DecidableEq

structure PartInfo where
  id : String
  sessionID : String
  messageID : String
  type : String
  tool : Option String := none
  text : Option String := none
  callID : Option String := none
  state : Option PartState := none
deriving DecidableEq

structure PartRow where
  id : String
  messageId : String
  partType : String
  toolName : Option String
  text : Option String
  content : PartInfo
deriving DecidableEq

/-- The `statusPriority` record of the handler; an unknown key yields 0
(`statusPriority[currentStatus] || 0`).  The SQL `CASE` on the stored
status uses the same mapping with `ELSE 0`. -/
def statusPriority (s : String) : Nat :=
  if s = "pending" then 1
  else if s = "running" then 2
  else if s = "completed" then 3
  else if s = "error" then 3
  else 0

/-- The nested status of a stored content snapshot. -/
def stateStatus (c : PartInfo) : Option String :=
  c.state.bind (·.status)

/-- The nested output of a stored content snapshot. -/
def stateOutput (c : PartInfo) : Option String :=
  c.state.bind (·.output)

/-- `currentPriority` of an incoming part:
`statusPriority[part.state?.status || "pending"] || 0`. -/
def incomingPriority (part : PartInfo) : Nat :=
  statusPriority ((jsStr (stateStatus part)).getD "pending")

/-- The rank embedded in a stored content snapshot, per the SQL
`COALESCE(CASE (content->'state'->>'status') ... ELSE 0 END, 0)`. -/
def storedRank (c : PartInfo) : Nat :=
  match stateStatus c with
  | some s => statusPriority s
  | none => 0

/-- `toolName` extracted by the handler:
`part.type === "tool" ? part.tool || null : null`. -/
def toolNameOf (part : PartInfo) : Option String :=
  if part.type = "tool" then jsStr part.tool else none

/-- The row written by the initial `INSERT ... ON CONFLICT (id) DO NOTHING`
of the `message.part.updated` handler. -/
def mkPartRow (part : PartInfo) : PartRow :=
  { id := part.id, messageId := part.messageID, partType := part.type,
    toolName := toolNameOf part, text := jsStr part.text, content := part }

/-- `INSERT ... ON CONFLICT (id) DO NOTHING`. -/
def insertPartIfAbsent (tbl : List PartRow) (row : PartRow) : List PartRow :=
  if (tbl.find? (fun r => r.id == row.id)).isSome then tbl else tbl ++ [row]

/-- The SQL predicate `text IS NULL OR LENGTH(text) < LENGTH(incoming)`. -/
def textShorter (stored : Option String) (incoming : String) : Bool :=
  match stored with
  | none => true
  | some u => u.length < incoming.length

/-- Streaming branch (`text` / `reasoning` parts): insert-if-absent, then,
when the incoming text is truthy, update rows whose stored text is null or
strictly shorter. -/
def upsertStreamingPart (tbl : List PartRow) (part : PartInfo) :
    List PartRow :=
  let tbl1 := insertPartIfAbsent tbl (mkPartRow part)
  match jsStr part.text with
  | none => tbl1
  | some t =>
      tbl1.map (fun r =>
        if r.id = part.id ∧ textShorter r.text t then
          { r with toolName := coalesce (toolNameOf part) r.toolName,
                   text := some t, content := part }
        else r)

/-- Status branch (every other part type): insert-if-absent, then update
rows whose stored rank does not exceed the incoming priority. -/
def upsertStatusPart (tbl : List PartRow) (part : PartInfo) : List PartRow :=
  let tbl1 := insertPartIfAbsent tbl (mkPartRow part)
  tbl1.map (fun r =>
    if r.id = part.id ∧ storedRank r.content ≤ incomingPriority part then
      { r with toolName := coalesce (toolNameOf part) r.toolName,
               text := coalesce (jsStr part.text) r.text, content := part }
    else r)

/-- The effect of the `message.part.updated` handler on the
`message_parts` table. -/
def messagePartUpdatedParts (tbl : List PartRow) (part : PartInfo) :
    List PartRow :=
  if part.type = "text" ∨ part.type = "reasoning" then
    upsertStreamingPart tbl part
  else upsertStatusPart tbl part

/-- Fold a sequence of `message.part.updated` events over the table. -/
def processParts (tbl : List PartRow) (parts : List PartInfo) :
    List PartRow :=
  parts.foldl messagePartUpdatedParts tbl

/-- The stored row with part id `pid`, if any. -/
def findRow (tbl : List PartRow) (pid : String) : Option PartRow :=
  tbl.find? (fun r => r.id == pid)

/-- The `text` column of the stored row with id `pid` (if a row exists). -/
def storedText (tbl : List PartRow) (pid : String) : Option (Option String) :=
  (findRow tbl pid).map (·.text)

/-- The nested status inside the stored content of row `pid`. -/
def storedStatus (tbl : List PartRow) (pid : String) :
    Option (Option String) :=
  (findRow tbl pid).map (fun r => stateStatus r.content)

/-! ## Tool execution correlation
(`src/index.ts` lines 10-34 and 665-799)

`PluginState` bundles the in-memory maps with the `tool_executions` and
`message_parts` tables.  `generateCorrelationId` produces a fresh id on
every call; this is modelled by the counter `nextCorrId`. -/

structure PendingExecution where
  correlationId : Nat
  sessionId : String
  toolName : String
  args : Option String
  startedAt : Nat
  partId : Option String := none
deriving DecidableEq

structure ToolRow where
  correlationId : Nat
  sessionId : String
  toolName : String
  args : Option String
  result : Option String
  startedAt : Option Nat
  completedAt : Option Nat
  durationMs : Option Int
  success : Option Bool
deriving DecidableEq

structure PluginState where
  nextCorrId : Nat
  pendingExecutions : List (String × PendingExecution)
  callIdToPartId : List (String × String)
  toolRows : List ToolRow
  partRows : List PartRow
deriving DecidableEq

/-- `tool.execute.before`: record a pending execution under the call id and
insert a `tool_executions` row holding the start time; completion fields
stay null. -/
def toolExecuteBefore (st : PluginState) (callID sessionID tool : String)
    (args : Option String) (now : Nat) : PluginState :=
  let correlationId := st.nextCorrId
  { st with
    nextCorrId := correlationId + 1,
    pendingExecutions :=
      aset callID
        { correlationId := correlationId, sessionId := sessionID,
          toolName := tool, args := args, startedAt := now }
        st.pendingExecutions,
    toolRows := st.toolRows ++
      [{ correlationId := correlationId, sessionId := sessionID,
         toolName := tool, args := args,
         result := none, startedAt := some now, completedAt := none,
         durationMs := none, success := none }] }

/-- `jsonb_set(COALESCE(content, ...), '{state,output}', out)`: the part
snapshot is stored with its (possibly absent) `state` key; `jsonb_set`
cannot create a missing intermediate key, so a content without a `state`
object is returned unchanged. -/
def jsonbSetStateOutput (c : PartInfo) (out : String) : PartInfo :=
  match c.state with
  | none => c
  | some s => { c with state := some { s with output := some out } }

/-- The part-annotation `UPDATE` of the `tool.execute.after` handler:
set `content.state.output` on the correlated part only where
`(content->'state'->>'output') IS NULL`. -/
def annotatePartOutput (tbl : List PartRow) (pid out : String) :
    List PartRow :=
  tbl.map (fun r =>
    if r.id = pid ∧ stateOutput r.content = none then
      { r with content := jsonbSetStateOutput r.content out }
    else r)

/-- `tool.execute.after`: with a matching pending entry, complete its
`tool_executions` row (result, completion time, duration, success) and
consume the entry; without one, synthesize a fresh completed row with no
start time and no duration.  In both paths, when a correlated part id and
a truthy output are available, annotate that part's stored content. -/
def toolExecuteAfter (st : PluginState) (callID sessionID tool : String)
    (out meta : Option String) (now : Nat) : PluginState :=
  let pending := alookup callID st.pendingExecutions
  let partId :=
    coalesce (jsStr (pending.bind (·.partId)))
      (jsStr (alookup callID st.callIdToPartId))
  match pending with
  | some p =>
      let toolRows := st.toolRows.map (fun r =>
        if r.correlationId = p.correlationId then
          { r with result := out, completedAt := some now,
                   durationMs := some ((now : Int) - (p.startedAt : Int)),
                   success := some true }
        else r)
      let partRows :=
        match partId, jsStr out with
        | some pidv, some o => annotatePartOutput st.partRows pidv o
        | _, _ => st.partRows
      { st with
        toolRows := toolRows,
        partRows := partRows,
        pendingExecutions := aerase callID st.pendingExecutions,
        callIdToPartId := aerase callID st.callIdToPartId }
  | none =>
      let row : ToolRow :=
        { correlationId := st.nextCorrId, sessionId := sessionID,
          toolName := tool, args := meta, result := out, startedAt := none,
          completedAt := some now, durationMs := none, success := some true }
      let partRows :=
        match partId, jsStr out with
        | some pidv, some o => annotatePartOutput st.partRows pidv o
        | _, _ => st.partRows
      { st with
        nextCorrId := st.nextCorrId + 1,
        toolRows := st.toolRows ++ [row],
        partRows := partRows,
        callIdToPartId := aerase callID st.callIdToPartId }

/-! ## Token accounting (`src/index.ts` lines 343-457) -/

structure CacheInfo where
  read : Option Nat := none
  write : Option Nat := none
deriving DecidableEq

structure TokenInfo where
  input : Option Nat := none
  output : Option Nat := none
  reasoning : Option Nat := none
  cache : Option CacheInfo := none
deriving DecidableEq

structure ModelRef where
  providerID : Option String := none
  modelID : Option String := none
deriving DecidableEq

structure MessageInfo where
  id : String
  sessionID : String
  role : String
  model : Option ModelRef := none
  providerID : Option String := none
  modelID : Option String := none
  tokens : Option TokenInfo := none
deriving DecidableEq

/-- `info.providerID || info.model?.providerID || null`. -/
def modelProviderOf (info : MessageInfo) : Option String :=
  coalesce (jsStr info.providerID) (jsStr (info.model.bind (·.providerID)))

/-- `info.modelID || info.model?.modelID || null`. -/
def modelIdOf (info : MessageInfo) : Option String :=
  coalesce (jsStr info.modelID) (jsStr (info.model.bind (·.modelID)))

/-- The token-accounting state: the `tokensCountedBySession` map (session
id → message id → timestamp) together with the sessions table. -/
structure TokenState where
  tokensCounted : List (String × List (String × Nat))
  sessions : List SessionRow
deriving DecidableEq

/-- The token-accounting tail of the `message.updated` handler (lines
415-455): for an assistant message carrying a token payload whose id is
not yet in the session's applied set, and reporting a positive input or
output count, mark the id applied and add the deltas to the session's
running counters. -/
def messageUpdatedTokens (st : TokenState) (info : MessageInfo) (now : Nat) :
    TokenState :=
  let sessionTokens := (alookup info.sessionID st.tokensCounted).getD []
  match info.tokens with
  | none => st
  | some tk =>
      if info.role = "assistant" ∧ alookup info.id sessionTokens = none then
        let inputTokens := tk.input.getD 0
        let outputTokens := tk.output.getD 0
        let reasoningTokens := tk.reasoning.getD 0
        let cacheRead := (tk.cache.bind (·.read)).getD 0
        let cacheWrite := (tk.cache.bind (·.write)).getD 0
        if 0 < inputTokens ∨ 0 < outputTokens then
          let contextSize := inputTokens + cacheRead
          { tokensCounted :=
              aset info.sessionID (aset info.id now sessionTokens)
                st.tokensCounted,
            sessions := st.sessions.map (fun r =>
              if r.id = info.sessionID then
                { r with
                  inputTokens := r.inputTokens + inputTokens,
                  outputTokens := r.outputTokens + outputTokens,
                  reasoningTokens := r.reasoningTokens + reasoningTokens,
                  cacheReadTokens := r.cacheReadTokens + cacheRead,
                  cacheWriteTokens := r.cacheWriteTokens + cacheWrite,
                  contextTokens := contextSize,
                  peakContextTokens := max r.peakContextTokens contextSize,
                  modelProvider :=
                    coalesce (modelProviderOf info) r.modelProvider,
                  modelId := coalesce (modelIdOf info) r.modelId }
              else r) }
        else st
      else st

/-! ## Lemmas about the part merge -/

theorem findRow_insert_absent (tbl : List PartRow) (row : PartRow)
    (habs : findRow tbl row.id = none) :
    insertPartIfAbsent tbl row = tbl ++ [row] := by
  unfold findRow at habs
  unfold insertPartIfAbsent
  rw [habs]
  rfl

theorem findRow_insert_present (tbl : List PartRow) (row : PartRow)
    (h : (findRow tbl row.id).isSome) :
    insertPartIfAbsent tbl row = tbl := by
  unfold findRow at h
  unfold insertPartIfAbsent
  rw [if_pos h]

theorem findRow_map_update (tbl : List PartRow) (pid : String)
    (g : PartRow → PartRow) (hg : ∀ r, (g r).id = r.id) :
    findRow (tbl.map g) pid = (findRow tbl pid).map g :=
  find_map_pres g _ (fun a => by rw [hg a]) tbl

theorem findRow_append_single (tbl : List PartRow) (row : PartRow)
    (habs : findRow tbl row.id = none) :
    findRow (tbl ++ [row]) row.id = some row := by
  unfold findRow at habs ⊢
  rw [find_append_none _ _ _ habs]
  simp [List.find?]

theorem findRow_id (tbl : List PartRow) (pid : String) (r : PartRow)
    (h : findRow tbl pid = some r) : r.id = pid := by
  unfold findRow at h
  have := List.find?_some h
  simpa using this

theorem storedRank_le_incoming (part : PartInfo) :
    storedRank part ≤ incomingPriority part := by
  cases h : stateStatus part with
  | none => simp [storedRank, incomingPriority, h, jsStr, statusPriority]
  | some v =>
    by_cases hv : v = "" <;>
      simp [storedRank, incomingPriority, h, jsStr, hv, statusPriority]

/-- The status-branch update applied to a stored row, when admitted. -/
def statusMerge (r : PartRow) (part : PartInfo) : PartRow :=
  { r with toolName := coalesce (toolNameOf part) r.toolName,
           text := coalesce (jsStr part.text) r.text, content := part }

theorem status_step_present (tbl : List PartRow) (part : PartInfo)
    (r : PartRow) (hty : ¬ (part.type = "text" ∨ part.type = "reasoning"))
    (hfound : findRow tbl part.id = some r) :
    findRow (messagePartUpdatedParts tbl part) part.id =
      some (if storedRank r.content ≤ incomingPriority part then
              statusMerge r part
            else r) := by
  unfold messagePartUpdatedParts
  rw [if_neg hty]
  unfold upsertStatusPart
  rw [findRow_insert_present tbl (mkPartRow part) (by simp [mkPartRow, hfound])]
  rw [findRow_map_update _ _ _ (fun a => by
    by_cases h : a.id = part.id ∧ storedRank a.content ≤ incomingPriority part <;>
      simp [h])]
  rw [hfound]
  have hid : r.id = part.id := findRow_id tbl part.id r hfound
  simp only [Option.map_some']
  by_cases hc : storedRank r.content ≤ incomingPriority part
  · rw [if_pos hc, if_pos ⟨hid, hc⟩]
    rfl
  · rw [if_neg hc, if_neg (by intro h; exact hc h.2)]

theorem status_step_absent (tbl : List PartRow) (part : PartInfo)
    (hty : ¬ (part.type = "text" ∨ part.type = "reasoning"))
    (habs : findRow tbl part.id = none) :
    findRow (messagePartUpdatedParts tbl part) part.id =
      some (mkPartRow part) := by
  unfold messagePartUpdatedParts
  rw [if_neg hty]
  unfold upsertStatusPart
  rw [findRow_insert_absent tbl (mkPartRow part) (by simpa [mkPartRow] using habs)]
  rw [findRow_map_update _ _ _ (fun a => by
    by_cases h : a.id = part.id ∧ storedRank a.content ≤ incomingPriority part <;>
      simp [h])]
  rw [show findRow (tbl ++ [mkPartRow part]) part.id = some (mkPartRow part) by
    simpa [mkPartRow] using
      findRow_append_single tbl (mkPartRow part) (by simpa [mkPartRow] using habs)]
  simp only [Option.map_some']
  rw [if_pos ⟨rfl, by simpa [mkPartRow] using storedRank_le_incoming part⟩]
  simp [statusMerge, mkPartRow, coalesce_self]

/-- The streaming-branch update applied to a stored row, when admitted. -/
def streamingMerge (r : PartRow) (part : PartInfo) (t : String) : PartRow :=
  { r with toolName := coalesce (toolNameOf part) r.toolName,
           text := some t, content := part }

theorem streaming_step_present (tbl : List PartRow) (part : PartInfo)
    (r : PartRow) (hty : part.type = "text" ∨ part.type = "reasoning")
    (hfound : findRow tbl part.id = some r) :
    findRow (messagePartUpdatedParts tbl part) part.id =
      some (match jsStr part.text with
            | none => r
            | some t => if textShorter r.text t then streamingMerge r part t
                        else r) := by
  unfold messagePartUpdatedParts
  rw [if_pos hty]
  unfold upsertStreamingPart
  rw [findRow_insert_present tbl (mkPartRow part) (by simp [mkPartRow, hfound])]
  have hid : r.id = part.id := findRow_id tbl part.id r hfound
  cases ht : jsStr part.text with
  | none => exact hfound
  | some t =>
    rw [findRow_map_update _ _ _ (fun a => by
      by_cases h : a.id = part.id ∧ textShorter a.text t <;> simp [h])]
    rw [hfound]
    simp only [Option.map_some']
    by_cases hc : textShorter r.text t = true
    · rw [if_pos hc, if_pos ⟨hid, hc⟩]
      rfl
    · rw [if_neg hc, if_neg (by intro h; exact hc h.2)]

theorem streaming_step_absent (tbl : List PartRow) (part : PartInfo)
    (hty : part.type = "text" ∨ part.type = "reasoning")
    (habs : findRow tbl part.id = none) :
    findRow (messagePartUpdatedParts tbl part) part.id =
      some (mkPartRow part) := by
  unfold messagePartUpdatedParts
  rw [if_pos hty]
  unfold upsertStreamingPart
  rw [findRow_insert_absent tbl (mkPartRow part) (by simpa [mkPartRow] using habs)]
  have happ : findRow (tbl ++ [mkPartRow part]) part.id = some (mkPartRow part) := by
    simpa [mkPartRow] using
      findRow_append_single tbl (mkPartRow part) (by simpa [mkPartRow] using habs)
  cases ht : jsStr part.text with
  | none => exact happ
  | some t =>
    rw [findRow_map_update _ _ _ (fun a => by
      by_cases h : a.id = part.id ∧ textShorter a.text t <;> simp [h])]
    rw [happ]
    simp only [Option.map_some']
    rw [if_neg (by
      intro h
      have : textShorter (mkPartRow part).text t = true := h.2
      rw [show (mkPartRow part).text = some t from by simp [mkPartRow, ht]] at this
      simp [textShorter] at this)]

/-- The evolution of the stored `text` column under one streaming update:
keep the stored value unless the incoming text is truthy and strictly
longer (or the stored value is null). -/
def step (stored incoming : Option String) : Option String :=
  match incoming with
  | none => stored
  | some t => if textShorter stored t then some t else stored

theorem step_none_left (x : Option String) : step none x = x := by
  cases x <;> simp [step, textShorter]

theorem streaming_text_present (tbl : List PartRow) (part : PartInfo)
    (r : PartRow) (hty : part.type = "text" ∨ part.type = "reasoning")
    (hfound : findRow tbl part.id = some r) :
    ∃ r', findRow (messagePartUpdatedParts tbl part) part.id = some r' ∧
      r'.text = step r.text (jsStr part.text) := by
  refine ⟨_, streaming_step_present tbl part r hty hfound, ?_⟩
  cases ht : jsStr part.text with
  | none => simp [step]
  | some t =>
    by_cases hc : textShorter r.text t = true
    · simp [step, hc, streamingMerge]
    · simp only [step]
      rw [if_neg hc, if_neg (by simpa using hc)]

theorem processParts_cons (tbl : List PartRow) (p : PartInfo)
    (ps : List PartInfo) :
    processParts tbl (p :: ps) = processParts (messagePartUpdatedParts tbl p) ps :=
  rfl

theorem processParts_text (parts : List PartInfo) (pid : String)
    (hall : ∀ p ∈ parts, p.id = pid ∧ (p.type = "text" ∨ p.type = "reasoning")) :
    ∀ tbl r, findRow tbl pid = some r →
      ∃ r', findRow (processParts tbl parts) pid = some r' ∧
        r'.text = List.foldl step r.text (parts.map (fun p => jsStr p.text)) := by
  induction parts with
  | nil => exact fun tbl r h => ⟨r, h, rfl⟩
  | cons p ps ih =>
    intro tbl r h
    obtain ⟨hid, hty⟩ := hall p (by simp)
    obtain ⟨r1, hr1, htext1⟩ :=
      streaming_text_present tbl p r hty (by rw [hid]; exact h)
    obtain ⟨r', hr', htext'⟩ :=
      ih (fun q hq => hall q (by simp [hq])) (messagePartUpdatedParts tbl p) r1
        (by rw [← hid]; exact hr1)
    refine ⟨r', by rw [processParts_cons]; exact hr', ?_⟩
    rw [htext', htext1]
    simp

theorem foldl_step_keep (ds : List (Option String)) (t : String)
    (hdom : ∀ s, some s ∈ ds → s.length ≤ t.length ∧
      (s.length = t.length → s = t)) :
    List.foldl step (some t) ds = some t := by
  induction ds with
  | nil => rfl
  | cons d ds ih =>
    have hstep : step (some t) d = some t := by
      cases d with
      | none => rfl
      | some s =>
        obtain ⟨hle, _⟩ := hdom s (by simp)
        simp [step, textShorter, Nat.not_lt.mpr hle]
    rw [List.foldl_cons, hstep]
    exact ih (fun s hs => hdom s (by simp [hs]))

theorem foldl_step_reach (ds : List (Option String)) (t : String) :
    ∀ v : Option String,
      (∀ u, v = some u → u.length ≤ t.length ∧ (u.length = t.length → u = t)) →
      some t ∈ ds →
      (∀ s, some s ∈ ds → s.length ≤ t.length ∧ (s.length = t.length → s = t)) →
      List.foldl step v ds = some t := by
  induction ds with
  | nil => intro v _ hmem _; cases hmem
  | cons d ds ih =>
    intro v hv hmem hdom
    rw [List.foldl_cons]
    rcases List.mem_cons.mp hmem with heq | hmem'
    · have hstep : step v (some t) = some t := by
        cases hval : v with
        | none => simp [step, textShorter]
        | some u =>
          obtain ⟨hle, heq'⟩ := hv u hval
          by_cases hlt : u.length < t.length
          · simp [step, textShorter, hlt]
          · have : u.length = t.length := Nat.le_antisymm hle (Nat.not_lt.mp hlt)
            rw [heq' this]
            simp [step, textShorter]
      rw [← heq, hstep]
      exact foldl_step_keep ds t (fun s hs => hdom s (by simp [hs]))
    · refine ih (step v d) ?_ hmem' (fun s hs => hdom s (by simp [hs]))
      intro u hu
      cases d with
      | none => exact hv u hu
      | some s =>
        simp only [step] at hu
        by_cases hc : textShorter v s = true
        · rw [if_pos hc] at hu
          cases hu
          exact hdom u (by simp)
        · rw [if_neg hc] at hu
          exact hv u hu

/-! ## Lemmas about token accounting and sessions -/

theorem map_id_of {α : Type} (f : α → α) (l : List α)
    (h : ∀ a ∈ l, f a = a) : l.map f = l := by
  induction l with
  | nil => rfl
  | cons a l ih =>
    rw [List.map_cons, h a (by simp), ih (fun b hb => h b (by simp [hb]))]

theorem findSession_id (tbl : List SessionRow) (sid : String) (r : SessionRow)
    (h : findSession tbl sid = some r) : r.id = sid := by
  unfold findSession at h
  have := List.find?_some h
  simpa using this

theorem findSession_map_update (tbl : List SessionRow) (sid : String)
    (g : SessionRow → SessionRow) (hg : ∀ r, (g r).id = r.id) :
    findSession (tbl.map g) sid = (findSession tbl sid).map g :=
  find_map_pres g _ (fun a => by rw [hg a]) tbl

/-- The per-session counter update performed by the token-accounting tail
of `message.updated` once admitted. -/
def applyTokens (r : SessionRow) (info : MessageInfo) (tk : TokenInfo) :
    SessionRow :=
  { r with
    inputTokens := r.inputTokens + tk.input.getD 0,
    outputTokens := r.outputTokens + tk.output.getD 0,
    reasoningTokens := r.reasoningTokens + tk.reasoning.getD 0,
    cacheReadTokens := r.cacheReadTokens + (tk.cache.bind (·.read)).getD 0,
    cacheWriteTokens := r.cacheWriteTokens + (tk.cache.bind (·.write)).getD 0,
    contextTokens := tk.input.getD 0 + (tk.cache.bind (·.read)).getD 0,
    peakContextTokens :=
      max r.peakContextTokens (tk.input.getD 0 + (tk.cache.bind (·.read)).getD 0),
    modelProvider := coalesce (modelProviderOf info) r.modelProvider,
    modelId := coalesce (modelIdOf info) r.modelId }

theorem tokens_apply_eq (st : TokenState) (info : MessageInfo) (now : Nat)
    (tk : TokenInfo) (htk : info.tokens = some tk)
    (hrole : info.role = "assistant")
    (hnz : 0 < tk.input.getD 0 ∨ 0 < tk.output.getD 0)
    (hnew : alookup info.id
      ((alookup info.sessionID st.tokensCounted).getD []) = none) :
    messageUpdatedTokens st info now =
      { tokensCounted := aset info.sessionID
          (aset info.id now ((alookup info.sessionID st.tokensCounted).getD []))
          st.tokensCounted,
        sessions := st.sessions.map (fun r =>
          if r.id = info.sessionID then applyTokens r info tk else r) } := by
  unfold messageUpdatedTokens
  rw [htk]
  dsimp only
  rw [if_pos ⟨hrole, hnew⟩, if_pos hnz]
  rfl

theorem tokens_skip_applied (st : TokenState) (info : MessageInfo)
    (now ts : Nat) (tk : TokenInfo) (htk : info.tokens = some tk)
    (hh : alookup info.id
      ((alookup info.sessionID st.tokensCounted).getD []) = some ts) :
    messageUpdatedTokens st info now = st := by
  unfold messageUpdatedTokens
  rw [htk]
  dsimp only
  rw [if_neg (by simp [hh])]

theorem tokens_skip_zero (st : TokenState) (info : MessageInfo) (now : Nat)
    (tk : TokenInfo) (htk : info.tokens = some tk)
    (hz1 : tk.input.getD 0 = 0) (hz2 : tk.output.getD 0 = 0) :
    messageUpdatedTokens st info now = st := by
  unfold messageUpdatedTokens
  rw [htk]
  dsimp only
  by_cases hg : info.role = "assistant" ∧
      alookup info.id ((alookup info.sessionID st.tokensCounted).getD []) = none
  · rw [if_pos hg, if_neg (by simp [hz1, hz2])]
  · rw [if_neg hg]

/-! ## Claim theorems -/

/-- C7: the health gate admits an operation iff the failure count is zero
or the elapsed time since the last failure is at least
`min(1000 * 2^(failures-1), 60000)` milliseconds; when not admitted,
`safeQuery` returns no data without invoking the operation and leaves the
health state unchanged; a successful admitted operation returns the value
and resets the failure count to zero. -/
theorem c7_health_gate_backoff {α : Type} (h : DbHealth) (now : Nat)
    (op : QueryOutcome α) :
    (isDatabaseHealthy h now = true ↔
      (h.consecutiveFailures = 0 ∨
        now - h.lastFailureTime ≥
          min (BASE_BACKOFF_MS * 2 ^ (h.consecutiveFailures - 1))
            MAX_BACKOFF_MS))
    ∧ (isDatabaseHealthy h now = false →
        safeQuery h now op = ⟨none, false, false, h⟩)
    ∧ (∀ v : α, isDatabaseHealthy h now = true →
        safeQuery h now (QueryOutcome.success v) =
          ⟨some v, false, true, ⟨0, 0⟩⟩) := by
  refine ⟨?_, ?_, ?_⟩
  · unfold isDatabaseHealthy
    by_cases h0 : h.consecutiveFailures = 0 <;> simp [h0]
  · intro hfalse
    unfold safeQuery
    rw [hfalse]
    rfl
  · intro v htrue
    unfold safeQuery
    rw [htrue]
    rfl

/-- Witness for C7 at concrete states: a fully backed-off gate admits, a
fresh failure blocks `safeQuery` without invoking it, and an admitted
success resets the counter. -/
theorem c7_health_gate_backoff_witness :
    (isDatabaseHealthy ⟨1, 0⟩ 1000 = true)
    ∧ safeQuery ⟨3, 5000⟩ 5001 (QueryOutcome.success (42 : Nat)) =
        ⟨none, false, false, ⟨3, 5000⟩⟩
    ∧ safeQuery ⟨1, 0⟩ 1000 (QueryOutcome.success (7 : Nat)) =
        ⟨some 7, false, true, ⟨0, 0⟩⟩ :=
  ⟨(c7_health_gate_backoff ⟨1, 0⟩ 1000 (QueryOutcome.success (0 : Nat))).1.mpr
      (Or.inr (by decide)),
   (c7_health_gate_backoff ⟨3, 5000⟩ 5001
      (QueryOutcome.success (42 : Nat))).2.1 (by decide),
   (c7_health_gate_backoff ⟨1, 0⟩ 1000
      (QueryOutcome.success (7 : Nat))).2.2 7 (by decide)⟩

/-- C9: a `session.error` event with an absent session id dispatches no
store writes; with a present (non-empty) session id it dispatches exactly
the append-only `session_errors` insert and the session status change to
`'error'`. -/
theorem c9_session_error_writes (err : Option ErrorInfo) (sid : String)
    (hsid : sid ≠ "") :
    sessionErrorHandler none err = []
    ∧ sessionErrorHandler (some sid) err =
        [StoreOp.insertSessionError sid
          ((jsStr (err.bind (·.name))).getD "unknown")
          (jsStr (err.bind fun e => e.data.bind (·.message))),
         StoreOp.updateSessionStatus sid "error"] := by
  constructor
  · rfl
  · unfold sessionErrorHandler jsStr
    simp [hsid]

/-- A concrete error payload used by the C9 witness. -/
def c9Err : ErrorInfo :=
  { name := some "E", data := some { message := some "boom" } }

/-- Witness for C9 at a concrete session id and error payload. -/
theorem c9_session_error_writes_witness :
    sessionErrorHandler none (some c9Err) = []
    ∧ sessionErrorHandler (some "s1") (some c9Err) =
        [StoreOp.insertSessionError "s1"
          ((jsStr ((some c9Err).bind (·.name))).getD "unknown")
          (jsStr ((some c9Err).bind fun e => e.data.bind (·.message))),
         StoreOp.updateSessionStatus "s1" "error"] :=
  c9_session_error_writes (some c9Err) "s1" (by decide)

/-- C8: for a stored session row, a `session.updated` event merges with
"new value if present, else keep existing": in particular an event whose
title is null (or empty) leaves a stored non-null title unchanged, and
likewise the `ON CONFLICT` branch of `session.created` coalesces every
updated column. -/
theorem c8_session_null_title (tbl : List SessionRow) (info : SessionInfo)
    (r : SessionRow) (hfound : findSession tbl info.id = some r) :
    findSession (sessionUpdated tbl info) info.id =
      some { r with
             title := coalesce (jsStr info.title) r.title,
             shareUrl := coalesce (jsStr (info.share.bind (·.url))) r.shareUrl }
    ∧ (info.title = none →
        (findSession (sessionUpdated tbl info) info.id).map (·.title) =
          some r.title)
    ∧ findSession (sessionCreated tbl info) info.id =
        some { r with
               title := coalesce (jsStr info.title) r.title,
               parentId := coalesce (jsStr info.parentID) r.parentId,
               projectId := coalesce (jsStr info.projectID) r.projectId,
               directory := coalesce (jsStr info.directory) r.directory } := by
  have hid : r.id = info.id := findSession_id tbl info.id r hfound
  have h1 : findSession (sessionUpdated tbl info) info.id =
      some { r with
             title := coalesce (jsStr info.title) r.title,
             shareUrl :=
               coalesce (jsStr (info.share.bind (·.url))) r.shareUrl } := by
    unfold sessionUpdated
    rw [findSession_map_update _ _ _ (fun a => by
      by_cases h : a.id = info.id <;> simp [h])]
    rw [hfound]
    simp only [Option.map_some']
    rw [if_pos hid]
  refine ⟨h1, ?_, ?_⟩
  · intro htitle
    rw [h1]
    simp [htitle, jsStr, coalesce]
  · unfold sessionCreated
    rw [if_pos (by unfold findSession at hfound; rw [hfound]; rfl)]
    rw [findSession_map_update _ _ _ (fun a => by
      by_cases h : a.id = info.id <;> simp [h])]
    rw [hfound]
    simp only [Option.map_some']
    rw [if_pos hid]

/-- Witness for C8: a stored title `"T"` survives a `session.updated`
carrying a null title. -/
theorem c8_session_null_title_witness :
    findSession
      (sessionUpdated [{ id := "s1", title := some "T" }] { id := "s1" })
      "s1" = some { id := "s1", title := coalesce (jsStr none) (some "T"),
                    shareUrl := coalesce (jsStr ((none : Option ShareInfo).bind (·.url))) none }
    ∧ ((none : Option String) = none →
        (findSession
          (sessionUpdated [{ id := "s1", title := some "T" }] { id := "s1" })
          "s1").map (·.title) = some (some "T"))
    ∧ findSession
        (sessionCreated [{ id := "s1", title := some "T" }] { id := "s1" })
        "s1" = some { id := "s1",
                      title := coalesce (jsStr none) (some "T"),
                      parentId := coalesce (jsStr none) none,
                      projectId := coalesce (jsStr none) none,
                      directory := coalesce (jsStr none) none } :=
  c8_session_null_title [{ id := "s1", title := some "T" }] { id := "s1" }
    { id := "s1", title := some "T" } rfl

/-- A status-bearing part event, as delivered by `message.part.updated`. -/
def mkStatusPart (pid sid mid ty s : String) : PartInfo :=
  { id := pid, sessionID := sid, messageID := mid, type := ty,
    state := some { status := some s } }

theorem storedRank_mkStatus (pid sid mid ty s : String) :
    storedRank (mkStatusPart pid sid mid ty s) = statusPriority s := rfl

theorem incoming_mkStatus (pid sid mid ty s : String) (hs : s ≠ "") :
    incomingPriority (mkStatusPart pid sid mid ty s) = statusPriority s := by
  unfold incomingPriority mkStatusPart stateStatus jsStr
  simp [hs]

/-- C2: for a non-streaming part id, the stored status converges to
`completed` whether `running` and `completed` arrive in order or reversed;
in general a strictly lower-ranked incoming status never overwrites a
higher-ranked stored one, while an equal rank updates the stored
snapshot. -/
theorem c2_status_convergence (tbl : List PartRow) (pid sid mid ty : String)
    (hty : ¬ (ty = "text" ∨ ty = "reasoning"))
    (habs : findRow tbl pid = none) :
    storedStatus (processParts tbl
        [mkStatusPart pid sid mid ty "running",
         mkStatusPart pid sid mid ty "completed"]) pid = some (some "completed")
    ∧ storedStatus (processParts tbl
        [mkStatusPart pid sid mid ty "completed",
         mkStatusPart pid sid mid ty "running"]) pid = some (some "completed")
    ∧ (∀ tbl2 part r, findRow tbl2 part.id = some r →
        ¬ (part.type = "text" ∨ part.type = "reasoning") →
        incomingPriority part < storedRank r.content →
        findRow (messagePartUpdatedParts tbl2 part) part.id = some r)
    ∧ (∀ tbl2 part r, findRow tbl2 part.id = some r →
        ¬ (part.type = "text" ∨ part.type = "reasoning") →
        incomingPriority part = storedRank r.content →
        findRow (messagePartUpdatedParts tbl2 part) part.id =
          some (statusMerge r part)) := by
  have htyR : ¬ ((mkStatusPart pid sid mid ty "running").type = "text" ∨
      (mkStatusPart pid sid mid ty "running").type = "reasoning") := hty
  have htyC : ¬ ((mkStatusPart pid sid mid ty "completed").type = "text" ∨
      (mkStatusPart pid sid mid ty "completed").type = "reasoning") := hty
  refine ⟨?_, ?_, ?_, ?_⟩
  · have h1 := status_step_absent tbl (mkStatusPart pid sid mid ty "running")
      htyR habs
    have h2 := status_step_present
      (messagePartUpdatedParts tbl (mkStatusPart pid sid mid ty "running"))
      (mkStatusPart pid sid mid ty "completed")
      (mkPartRow (mkStatusPart pid sid mid ty "running")) htyC h1
    rw [if_pos (by
      show storedRank (mkStatusPart pid sid mid ty "running") ≤
        incomingPriority (mkStatusPart pid sid mid ty "completed")
      rw [storedRank_mkStatus, incoming_mkStatus _ _ _ _ _ (by decide)]
      decide)] at h2
    rw [show (mkStatusPart pid sid mid ty "completed").id = pid from rfl] at h2
    unfold storedStatus
    rw [show processParts tbl
        [mkStatusPart pid sid mid ty "running",
         mkStatusPart pid sid mid ty "completed"] =
      messagePartUpdatedParts
        (messagePartUpdatedParts tbl (mkStatusPart pid sid mid ty "running"))
        (mkStatusPart pid sid mid ty "completed") from rfl]
    rw [h2]
    rfl
  · have h1 := status_step_absent tbl (mkStatusPart pid sid mid ty "completed")
      htyC habs
    have h2 := status_step_present
      (messagePartUpdatedParts tbl (mkStatusPart pid sid mid ty "completed"))
      (mkStatusPart pid sid mid ty "running")
      (mkPartRow (mkStatusPart pid sid mid ty "completed")) htyR h1
    rw [if_neg (by
      show ¬ (storedRank (mkStatusPart pid sid mid ty "completed") ≤
        incomingPriority (mkStatusPart pid sid mid ty "running"))
      rw [storedRank_mkStatus, incoming_mkStatus _ _ _ _ _ (by decide)]
      decide)] at h2
    rw [show (mkStatusPart pid sid mid ty "running").id = pid from rfl] at h2
    unfold storedStatus
    rw [show processParts tbl
        [mkStatusPart pid sid mid ty "completed",
         mkStatusPart pid sid mid ty "running"] =
      messagePartUpdatedParts
        (messagePartUpdatedParts tbl (mkStatusPart pid sid mid ty "completed"))
        (mkStatusPart pid sid mid ty "running") from rfl]
    rw [h2]
    rfl
  · intro tbl2 part r hf hty2 hlt
    have h := status_step_present tbl2 part r hty2 hf
    rw [if_neg (Nat.not_le.mpr hlt)] at h
    exact h
  · intro tbl2 part r hf hty2 heq
    have h := status_step_present tbl2 part r hty2 hf
    rw [if_pos (Nat.le_of_eq heq.symm)] at h
    exact h

/-- Witness for C2: both delivery orders, run on a concrete empty table
and a concrete `tool` part id. -/
theorem c2_status_convergence_witness :
    storedStatus (processParts []
        [mkStatusPart "p" "s" "m" "tool" "running",
         mkStatusPart "p" "s" "m" "tool" "completed"]) "p" =
      some (some "completed")
    ∧ storedStatus (processParts []
        [mkStatusPart "p" "s" "m" "tool" "completed",
         mkStatusPart "p" "s" "m" "tool" "running"]) "p" =
      some (some "completed") :=
  ⟨(c2_status_convergence [] "p" "s" "m" "tool" (by decide) rfl).1,
   (c2_status_convergence [] "p" "s" "m" "tool" (by decide) rfl).2.1⟩

/-- A concrete stored `tool` part whose nested status is `pending`. -/
def c3Stored : PartInfo :=
  { id := "p1", sessionID := "s", messageID := "m", type := "tool",
    state := some { status := some "pending" } }

/-- A concrete incoming `tool` part update with an absent status. -/
def c3AbsentStatus : PartInfo :=
  { id := "p1", sessionID := "s", messageID := "m", type := "tool",
    state := some { status := none } }

/-- C3 counterexample: a stored part with nested status `pending` (rank 1)
IS overwritten by an incoming update whose status is absent, because the
handler defaults an absent status to `"pending"` (rank 1), not rank 0 —
the stored nested status becomes absent after the update. -/
theorem c3_counterexample :
    storedStatus [mkPartRow c3Stored] "p1" = some (some "pending")
    ∧ storedStatus (messagePartUpdatedParts [mkPartRow c3Stored] c3AbsentStatus)
        "p1" = some none := by decide

/-- C3 (amended): in the status-bearing merge an incoming update whose
`state.status` is an unknown non-empty string is ranked 0 and never
overwrites a stored part whose nested status ranks 1 or higher
(`pending`, `running`, `completed`, `error`); an update whose status is
absent or the empty string instead defaults to `"pending"` and so carries
rank 1: it does overwrite a stored part ranked at most 1 (including a
stored `pending`), but never one ranked 2 or higher. -/
theorem c3_unknown_status_rank (tbl : List PartRow) (part : PartInfo)
    (r : PartRow)
    (hty : ¬ (part.type = "text" ∨ part.type = "reasoning"))
    (hfound : findRow tbl part.id = some r) :
    (∀ s, jsStr (stateStatus part) = some s → statusPriority s = 0 →
      1 ≤ storedRank r.content →
      findRow (messagePartUpdatedParts tbl part) part.id = some r)
    ∧ (jsStr (stateStatus part) = none → 2 ≤ storedRank r.content →
        findRow (messagePartUpdatedParts tbl part) part.id = some r)
    ∧ (jsStr (stateStatus part) = none → storedRank r.content ≤ 1 →
        findRow (messagePartUpdatedParts tbl part) part.id =
          some (statusMerge r part)) := by
  refine ⟨?_, ?_, ?_⟩
  · intro s hs hrank0 hstored
    have hinc : incomingPriority part = 0 := by
      unfold incomingPriority
      rw [hs]
      simpa using hrank0
    have h := status_step_present tbl part r hty hfound
    rw [if_neg (by rw [hinc]; omega)] at h
    exact h
  · intro hs hstored
    have hinc : incomingPriority part = 1 := by
      unfold incomingPriority
      rw [hs]
      rfl
    have h := status_step_present tbl part r hty hfound
    rw [if_neg (by rw [hinc]; omega)] at h
    exact h
  · intro hs hstored
    have hinc : incomingPriority part = 1 := by
      unfold incomingPriority
      rw [hs]
      rfl
    have h := status_step_present tbl part r hty hfound
    rw [if_pos (by rw [hinc]; omega)] at h
    exact h

/-- A concrete stored `tool` part whose nested status is `running`. -/
def c3Running : PartInfo :=
  { id := "p1", sessionID := "s", messageID := "m", type := "tool",
    state := some { status := some "running" } }

/-- A concrete incoming `tool` part update with the unknown status
`"weird"`. -/
def c3Unknown : PartInfo :=
  { id := "p1", sessionID := "s", messageID := "m", type := "tool",
    state := some { status := some "weird" } }

/-- Witness for the amended C3: an unknown status does not overwrite a
stored `running` part, and an absent status does overwrite a stored
`pending` part. -/
theorem c3_unknown_status_rank_witness :
    findRow (messagePartUpdatedParts [mkPartRow c3Running] c3Unknown) "p1" =
      some (mkPartRow c3Running)
    ∧ findRow (messagePartUpdatedParts [mkPartRow c3Stored] c3AbsentStatus)
        "p1" = some (statusMerge (mkPartRow c3Stored) c3AbsentStatus) :=
  ⟨(c3_unknown_status_rank [mkPartRow c3Running] c3Unknown
      (mkPartRow c3Running) (by decide) rfl).1 "weird" rfl (by decide)
      (by decide),
   (c3_unknown_status_rank [mkPartRow c3Stored] c3AbsentStatus
      (mkPartRow c3Stored) (by decide) rfl).2.2 rfl (by decide)⟩

/-- C4 (amended): for streaming (`text`/`reasoning`) updates to one part
id, the final stored text equals the unique longest delivered truthy text
— the handler passes `part.text || null`, so a null OR EMPTY text is
treated as absent — independently of arrival order; and a single update
whose truthy text is not strictly longer than the stored text leaves the
stored text unchanged. -/
theorem c4_text_monotonic (tbl : List PartRow) (parts : List PartInfo)
    (pid t : String)
    (hall : ∀ p ∈ parts, p.id = pid ∧ (p.type = "text" ∨ p.type = "reasoning"))
    (habs : findRow tbl pid = none)
    (hmem : some t ∈ parts.map (fun p => jsStr p.text))
    (hdom : ∀ s, some s ∈ parts.map (fun p => jsStr p.text) →
      s.length ≤ t.length ∧ (s.length = t.length → s = t)) :
    storedText (processParts tbl parts) pid = some (some t)
    ∧ (∀ tbl2 part r, findRow tbl2 part.id = some r →
        (part.type = "text" ∨ part.type = "reasoning") →
        (∀ s, jsStr part.text = some s → textShorter r.text s = false) →
        storedText (messagePartUpdatedParts tbl2 part) part.id =
          some r.text) := by
  constructor
  · cases parts with
    | nil => simp at hmem
    | cons q qs =>
      obtain ⟨hid, hty⟩ := hall q (by simp)
      have h0 := streaming_step_absent tbl q hty (by rw [hid]; exact habs)
      obtain ⟨r', hr', htext⟩ := processParts_text qs pid
        (fun p hp => hall p (by simp [hp]))
        (messagePartUpdatedParts tbl q) (mkPartRow q)
        (by rw [← hid]; exact h0)
      unfold storedText
      rw [processParts_cons, hr']
      simp only [Option.map_some']
      rw [htext]
      have hfold : List.foldl step ((mkPartRow q).text)
          (qs.map (fun p => jsStr p.text)) =
          List.foldl step (none : Option String)
            ((q :: qs).map (fun p => jsStr p.text)) := by
        rw [List.map_cons, List.foldl_cons, step_none_left]
        rfl
      rw [hfold, foldl_step_reach _ t none (by intro u hu; cases hu)
        hmem hdom]
  · intro tbl2 part r hf hty2 hns
    have h := streaming_step_present tbl2 part r hty2 hf
    unfold storedText
    cases hjs : jsStr part.text with
    | none =>
      rw [hjs] at h
      rw [h]
      rfl
    | some s =>
      rw [hjs] at h
      dsimp only at h
      rw [if_neg (by simp [hns s hjs])] at h
      rw [h]
      rfl

/-- A concrete streaming text part delivering the empty string. -/
def c4Empty : PartInfo :=
  { id := "p1", sessionID := "s", messageID := "m", type := "text",
    text := some "" }

/-- C4 counterexample: a delivered non-null text `""` is treated as
absent by `part.text || null`, so after the event the stored text is NULL
rather than the longest delivered non-null text `""`. -/
theorem c4_counterexample :
    c4Empty.text = some ""
    ∧ storedText (processParts [] [c4Empty]) "p1" = some none := by decide

/-- A concrete streaming text part delivering `"ab"`. -/
def c4Short : PartInfo :=
  { id := "p1", sessionID := "s", messageID := "m", type := "text",
    text := some "ab" }

/-- A concrete streaming text part delivering `"abcd"`. -/
def c4Long : PartInfo :=
  { id := "p1", sessionID := "s", messageID := "m", type := "text",
    text := some "abcd" }

/-- Witness for the amended C4: the longer text delivered first is not
overwritten by the later shorter duplicate. -/
theorem c4_text_monotonic_witness :
    storedText (processParts [] [c4Long, c4Short]) "p1" =
      some (some "abcd") :=
  (c4_text_monotonic [] [c4Long, c4Short] "p1" "abcd"
    (by decide) rfl (by decide)
    (by
      intro s hs
      simp [c4Long, c4Short, jsStr] at hs
      rcases hs with h | h <;> subst h <;> exact ⟨by decide, by decide⟩)).1

/-- C5: applying the same assistant `message.updated` event with non-zero
token counts twice adds the deltas to the session's running counters
exactly once — the second application is a complete no-op because the
message id is already in the session's token-applied set. -/
theorem c5_tokens_idempotent (st : TokenState) (info : MessageInfo)
    (now1 now2 : Nat) (tk : TokenInfo)
    (htk : info.tokens = some tk) (hrole : info.role = "assistant")
    (hnz : 0 < tk.input.getD 0 ∨ 0 < tk.output.getD 0)
    (hnew : alookup info.id
      ((alookup info.sessionID st.tokensCounted).getD []) = none) :
    messageUpdatedTokens (messageUpdatedTokens st info now1) info now2 =
      messageUpdatedTokens st info now1
    ∧ (∀ r, findSession st.sessions info.sessionID = some r →
        findSession (messageUpdatedTokens st info now1).sessions
          info.sessionID = some (applyTokens r info tk)) := by
  have h1 := tokens_apply_eq st info now1 tk htk hrole hnz hnew
  constructor
  · rw [h1]
    exact tokens_skip_applied _ info now2 now1 tk htk
      (by
        dsimp only
        rw [alookup_aset_self]
        simp [alookup_aset_self])
  · intro r hr
    rw [h1]
    dsimp only
    rw [findSession_map_update _ _ _ (fun a => by
      by_cases h : a.id = info.sessionID <;> simp [h, applyTokens])]
    rw [hr]
    simp only [Option.map_some']
    rw [if_pos (findSession_id _ _ _ hr)]

/-- Witness for C5 at a concrete state: one session row, one assistant
message with 10 input / 5 output tokens, applied twice. -/
theorem c5_tokens_idempotent_witness :
    messageUpdatedTokens
      (messageUpdatedTokens ⟨[], [{ id := "s1" }]⟩
        { id := "m1", sessionID := "s1", role := "assistant",
          tokens := some { input := some 10, output := some 5 } } 100)
      { id := "m1", sessionID := "s1", role := "assistant",
        tokens := some { input := some 10, output := some 5 } } 200 =
    messageUpdatedTokens ⟨[], [{ id := "s1" }]⟩
      { id := "m1", sessionID := "s1", role := "assistant",
        tokens := some { input := some 10, output := some 5 } } 100 :=
  (c5_tokens_idempotent ⟨[], [{ id := "s1" }]⟩
    { id := "m1", sessionID := "s1", role := "assistant",
      tokens := some { input := some 10, output := some 5 } } 100 200
    { input := some 10, output := some 5 } rfl rfl (by decide) rfl).1

/-- C6: an assistant `message.updated` event reporting zero input and zero
output tokens is a complete no-op on the token-accounting state (the id is
not marked applied and no counter write is issued), so a later event for
the same message id with non-zero tokens is still counted: it marks the id
applied and adds its deltas to the session counters. -/
theorem c6_zero_tokens_not_marked (st : TokenState) (info info2 : MessageInfo)
    (now now2 : Nat) (tk tk2 : TokenInfo)
    (htk : info.tokens = some tk)
    (hz1 : tk.input.getD 0 = 0) (hz2 : tk.output.getD 0 = 0)
    (htk2 : info2.tokens = some tk2) (hrole2 : info2.role = "assistant")
    (hnz2 : 0 < tk2.input.getD 0 ∨ 0 < tk2.output.getD 0)
    (hnew2 : alookup info2.id
      ((alookup info2.sessionID st.tokensCounted).getD []) = none) :
    messageUpdatedTokens st info now = st
    ∧ messageUpdatedTokens (messageUpdatedTokens st info now) info2 now2 =
        messageUpdatedTokens st info2 now2
    ∧ alookup info2.id
        ((alookup info2.sessionID
          (messageUpdatedTokens st info2 now2).tokensCounted).getD []) =
        some now2
    ∧ (∀ r, findSession st.sessions info2.sessionID = some r →
        findSession (messageUpdatedTokens st info2 now2).sessions
          info2.sessionID = some (applyTokens r info2 tk2)) := by
  have hzero := tokens_skip_zero st info now tk htk hz1 hz2
  have h2 := tokens_apply_eq st info2 now2 tk2 htk2 hrole2 hnz2 hnew2
  refine ⟨hzero, by rw [hzero], ?_, ?_⟩
  · rw [h2]
    dsimp only
    rw [alookup_aset_self]
    simp [alookup_aset_self]
  · intro r hr
    rw [h2]
    dsimp only
    rw [findSession_map_update _ _ _ (fun a => by
      by_cases h : a.id = info2.sessionID <;> simp [h, applyTokens])]
    rw [hr]
    simp only [Option.map_some']
    rw [if_pos (findSession_id _ _ _ hr)]

/-- Witness for C6 at a concrete state: a zero-token assistant message is
a no-op and a later 10/5-token message for the same id is still counted. -/
theorem c6_zero_tokens_not_marked_witness :
    messageUpdatedTokens ⟨[], [{ id := "s1" }]⟩
      { id := "m1", sessionID := "s1", role := "assistant",
        tokens := some { input := some 0, output := some 0 } } 100 =
      ⟨[], [{ id := "s1" }]⟩
    ∧ messageUpdatedTokens
        (messageUpdatedTokens ⟨[], [{ id := "s1" }]⟩
          { id := "m1", sessionID := "s1", role := "assistant",
            tokens := some { input := some 0, output := some 0 } } 100)
        { id := "m1", sessionID := "s1", role := "assistant",
          tokens := some { input := some 10, output := some 5 } } 200 =
      messageUpdatedTokens ⟨[], [{ id := "s1" }]⟩
        { id := "m1", sessionID := "s1", role := "assistant",
          tokens := some { input := some 10, output := some 5 } } 200 :=
  ⟨(c6_zero_tokens_not_marked ⟨[], [{ id := "s1" }]⟩
      { id := "m1", sessionID := "s1", role := "assistant",
        tokens := some { input := some 0, output := some 0 } }
      { id := "m1", sessionID := "s1", role := "assistant",
        tokens := some { input := some 10, output := some 5 } } 100 200
      { input := some 0, output := some 0 }
      { input := some 10, output := some 5 }
      rfl rfl rfl rfl rfl (by decide) rfl).1,
   (c6_zero_tokens_not_marked ⟨[], [{ id := "s1" }]⟩
      { id := "m1", sessionID := "s1", role := "assistant",
        tokens := some { input := some 0, output := some 0 } }
      { id := "m1", sessionID := "s1", role := "assistant",
        tokens := some { input := some 10, output := some 5 } } 100 200
      { input := some 0, output := some 0 }
      { input := some 10, output := some 5 }
      rfl rfl rfl rfl rfl (by decide) rfl).2.1⟩

/-- C1: a `tool.execute.before` / `tool.execute.after` pair sharing a call
id produces exactly one new `tool_executions` row, completed with
`duration_ms = completedAt - startedAt` and `success = true`; an after
with no pending before entry also produces exactly one new row, completed
with `success = true` but no duration and no start time. -/
theorem c1_tool_execution_pairing (st : PluginState)
    (callID sid tool sid2 tool2 : String)
    (args out meta out2 meta2 : Option String) (t1 t2 : Nat)
    (hfresh : ∀ r ∈ st.toolRows, r.correlationId < st.nextCorrId)
    (hnp : alookup callID st.pendingExecutions = none) :
    (toolExecuteAfter (toolExecuteBefore st callID sid tool args t1)
        callID sid2 tool2 out meta t2).toolRows =
      st.toolRows ++
        [{ correlationId := st.nextCorrId, sessionId := sid,
           toolName := tool, args := args, result := out,
           startedAt := some t1, completedAt := some t2,
           durationMs := some ((t2 : Int) - (t1 : Int)),
           success := some true }]
    ∧ (toolExecuteAfter st callID sid2 tool2 out2 meta2 t2).toolRows =
        st.toolRows ++
          [{ correlationId := st.nextCorrId, sessionId := sid2,
             toolName := tool2, args := meta2, result := out2,
             startedAt := none, completedAt := some t2,
             durationMs := none, success := some true }] := by
  constructor
  · have hpe : alookup callID
        (toolExecuteBefore st callID sid tool args t1).pendingExecutions =
        some { correlationId := st.nextCorrId, sessionId := sid,
               toolName := tool, args := args, startedAt := t1 } := by
      unfold toolExecuteBefore
      exact alookup_aset_self _ _ _
    unfold toolExecuteAfter
    rw [hpe]
    dsimp only
    rw [show (toolExecuteBefore st callID sid tool args t1).toolRows =
      st.toolRows ++
        [{ correlationId := st.nextCorrId, sessionId := sid,
           toolName := tool, args := args, result := none,
           startedAt := some t1, completedAt := none,
           durationMs := none, success := none }] from rfl]
    rw [List.map_append,
      map_id_of _ st.toolRows (fun r hr =>
        if_neg (fun hceq => absurd hceq (Nat.ne_of_lt (hfresh r hr))))]
    simp
  · unfold toolExecuteAfter
    rw [hnp]

/-- Witness for C1 at a concrete empty initial state: a matched pair and
an orphan after, each appending exactly one row. -/
theorem c1_tool_execution_pairing_witness :
    (toolExecuteAfter (toolExecuteBefore ⟨0, [], [], [], []⟩
        "c1" "s" "bash" (some "ls") 100) "c1" "s" "bash"
        (some "out") none 150).toolRows =
      [] ++
        [{ correlationId := 0, sessionId := "s", toolName := "bash",
           args := some "ls", result := some "out", startedAt := some 100,
           completedAt := some 150,
           durationMs := some ((150 : Int) - (100 : Int)),
           success := some true }]
    ∧ (toolExecuteAfter ⟨0, [], [], [], []⟩ "c1" "s" "bash"
        (some "out") none 150).toolRows =
        [] ++
          [{ correlationId := 0, sessionId := "s", toolName := "bash",
             args := none, result := some "out", startedAt := none,
             completedAt := some 150, durationMs := none,
             success := some true }] :=
  c1_tool_execution_pairing ⟨0, [], [], [], []⟩ "c1" "s" "bash" "s" "bash"
    (some "ls") (some "out") none (some "out") none 100 150
    (by simp) rfl

theorem annotate_length (tbl : List PartRow) (pid o : String) :
    (annotatePartOutput tbl pid o).length = tbl.length := by
  simp [annotatePartOutput]

theorem annotate_getElem (tbl : List PartRow) (pid o : String) (i : Nat)
    (h : i < tbl.length) (h' : i < (annotatePartOutput tbl pid o).length) :
    (annotatePartOutput tbl pid o)[i] =
      if tbl[i].id = pid ∧ stateOutput tbl[i].content = none then
        { tbl[i] with content := jsonbSetStateOutput tbl[i].content o }
      else tbl[i] := by
  simp [annotatePartOutput]

theorem toolExecuteAfter_partRows (st : PluginState)
    (callID sid tool : String) (out meta : Option String) (now : Nat) :
    (toolExecuteAfter st callID sid tool out meta now).partRows = st.partRows
    ∨ ∃ pidv o,
        (toolExecuteAfter st callID sid tool out meta now).partRows =
          annotatePartOutput st.partRows pidv o := by
  unfold toolExecuteAfter
  cases alookup callID st.pendingExecutions with
  | none =>
    dsimp only
    split
    · right; exact ⟨_, _, rfl⟩
    · left; rfl
  | some p =>
    dsimp only
    split
    · right; exact ⟨_, _, rfl⟩
    · left; rfl

/-- C10: the `tool.execute.after` handler never changes the length of the
parts table, leaves every part whose stored `content.state.output` is
already set completely unchanged, and only ever changes a part whose
stored output was null — covering both the matched-pending and the
orphan-after paths. -/
theorem c10_output_write_once (st : PluginState) (callID sid tool : String)
    (out meta : Option String) (now : Nat) :
    (toolExecuteAfter st callID sid tool out meta now).partRows.length =
      st.partRows.length
    ∧ ∀ i (h1 : i < st.partRows.length)
        (h2 : i <
          (toolExecuteAfter st callID sid tool out meta now).partRows.length),
        (stateOutput (st.partRows[i]).content ≠ none →
          (toolExecuteAfter st callID sid tool out meta now).partRows[i] =
            st.partRows[i])
        ∧ ((toolExecuteAfter st callID sid tool out meta now).partRows[i] ≠
            st.partRows[i] →
          stateOutput (st.partRows[i]).content = none) := by
  rcases toolExecuteAfter_partRows st callID sid tool out meta now with
    h | ⟨pidv, o, h⟩
  · rw [h]
    exact ⟨rfl, fun i h1 h2 => ⟨fun _ => rfl, fun hne => absurd rfl hne⟩⟩
  · rw [h]
    refine ⟨annotate_length _ _ _, fun i h1 h2 => ?_⟩
    rw [annotate_getElem st.partRows pidv o i h1 h2]
    constructor
    · intro hsome
      rw [if_neg (fun hc => hsome hc.2)]
    · intro hne
      by_cases hc : (st.partRows[i]).id = pidv ∧
          stateOutput (st.partRows[i]).content = none
      · exact hc.2
      · rw [if_neg hc] at hne
        exact absurd rfl hne

/-- A concrete stored `tool` part that already carries an output. -/
def c10Part : PartInfo :=
  { id := "p9", sessionID := "s", messageID := "m", type := "tool",
    callID := some "c1",
    state := some { status := some "completed", output := some "prev" } }

/-- A concrete plugin state whose call-id map correlates `c1` with the
already-annotated part `p9`. -/
def c10State : PluginState :=
  { nextCorrId := 0, pendingExecutions := [],
    callIdToPartId := [("c1", "p9")], toolRows := [],
    partRows := [mkPartRow c10Part] }

/-- Witness for C10: an orphan after for call `c1` leaves the
already-annotated part `p9` unchanged. -/
theorem c10_output_write_once_witness :
    stateOutput (mkPartRow c10Part).content ≠ none
    ∧ (toolExecuteAfter c10State "c1" "s" "bash" (some "new") none
        5).partRows.get ⟨0, by decide⟩ = mkPartRow c10Part :=
  ⟨by decide,
   ((c10_output_write_once c10State "c1" "s" "bash" (some "new") none 5).2
      0 (by decide) (by decide)).1 (by decide)⟩
